import Mathlib

/-!
# Verification of the generation-job lifecycle engine

Shallow embedding of the core components of the discord-video-gen-bot
repository, together with theorems settling the specification claims.

Components modelled (from the TypeScript source):
* `Semaphore` — src/src/common/semaphore.ts
* `VeoService.checkOperationStatus` / `checkGcsFiles` / `pollOperation` —
  the GCS-fallback poller (src/unnamed/part_007, first `VeoService` class)
* `RequestTrackingService` — src/src/database/request-tracking.service.ts
* `RateLimitService` — src/src/veo/veo.service.ts (second class in the file)
* `TaskResumeService` — src/src/discord/task-resume.service.ts

Conventions: machine time is modelled in milliseconds as `Nat` (the poller,
whose backoff interval becomes fractional after repeated ×1.5 growth, uses
`ℚ`).  Asynchronous interleaving is modelled by explicit event sequences;
results of external I/O (HTTP fetch, GCS listing, the generation API) are
supplied by oracle environments indexed by call site.  A database/storage
failure is modelled by a `storeOk : Bool` flag selecting the `catch` branch
of the corresponding service method.
-/

set_option maxHeartbeats 1000000

/-! ## Counting semaphore (src/src/common/semaphore.ts)

A queue entry in the source is `{ resolve, reject, timeout }`; the identity
of the `resolve` closure is modelled by a ghost id `wid`, handed out from an
increasing counter at enqueue time (so `wid` order is enqueue order).  The
`setTimeout(…, timeoutMs)` registered at enqueue time is modelled by storing
the enqueue time and the timeout; the timer-fired callback is an event that
is enabled only when the waiter is still queued (i.e. not yet woken by
`release`, which calls `clearTimeout`) and the deadline has passed.
-/

structure Waiter where
  wid : Nat
  enqueuedAt : Nat
  timeoutMs : Nat
  deriving Repr, DecidableEq

structure Semaphore where
  maxPermits : Nat
  permits : Int
  queue : List Waiter
  nextId : Nat
  deriving Repr, DecidableEq

/-- `constructor(maxPermits) { this.permits = maxPermits }` -/
def Semaphore.mk0 (c : Nat) : Semaphore :=
  { maxPermits := c, permits := (c : Int), queue := [], nextId := 0 }

/-- `acquire(timeoutMs)`, lines 18–35: if a permit is available, decrement
and resolve immediately (`true`); otherwise push a waiter (with its timeout
registration) onto the queue (`false`). -/
def Semaphore.tryAcquire (s : Semaphore) (now timeoutMs : Nat) :
    Semaphore × Bool :=
  if 0 < s.permits then
    ({ s with permits := s.permits - 1 }, true)
  else
    ({ s with queue := s.queue ++ [⟨s.nextId, now, timeoutMs⟩],
              nextId := s.nextId + 1 }, false)

/-- `release()`, lines 40–52: if the queue is non-empty, shift the oldest
waiter and resolve it (permit handed over directly, counter untouched);
otherwise increment the permit counter.  Returns the woken waiter's id. -/
def Semaphore.release (s : Semaphore) : Semaphore × Option Nat :=
  match s.queue with
  | next :: rest => ({ s with queue := rest }, some next.wid)
  | [] => ({ s with permits := s.permits + 1 }, none)

/-- `findIndex` + `splice(index, 1)` from the timeout callback (lines
26–29): remove the first queue entry with the given id, returning it and
the remaining queue. -/
def removeFirstByWid (wid : Nat) : List Waiter → Option (Waiter × List Waiter)
  | [] => none
  | w :: rest =>
    if w.wid == wid then some (w, rest)
    else (removeFirstByWid wid rest).map (fun p => (p.1, w :: p.2))

/-- The timeout callback (lines 25–31): locate the waiter, splice it out of
the queue, and reject with the timeout error. -/
def Semaphore.fireTimeout (s : Semaphore) (wid : Nat) :
    Semaphore × Option String :=
  match removeFirstByWid wid s.queue with
  | some (w, q) =>
    ({ s with queue := q },
      some ("Semaphore acquire timeout after " ++ toString w.timeoutMs ++ "ms"))
  | none => (s, none)

/-- `getQueueDepth()` -/
def Semaphore.getQueueDepth (s : Semaphore) : Nat := s.queue.length

/-- `getAvailablePermits()` -/
def Semaphore.getAvailablePermits (s : Semaphore) : Int := s.permits

/-- Events of a semaphore history.  `acquire` is a call to `acquire`;
`release` a call to `release`; `fire wid now` the timer callback of waiter
`wid` firing at absolute time `now`. -/
inductive SemEvent where
  | acquire (now timeoutMs : Nat)
  | release
  | fire (wid : Nat) (now : Nat)
  deriving Repr, DecidableEq

/-- One step of the history.  The `Int` component is a ghost count of tasks
currently holding a permit: an immediate acquire takes a permit; a release
with a non-empty queue hands the permit straight to the woken waiter (the
holder count is unchanged); a release with an empty queue gives the permit
back. -/
def semStep (st : Semaphore × Int) (e : SemEvent) : Semaphore × Int :=
  match e with
  | .acquire now t =>
    match st.1.tryAcquire now t with
    | (s, true) => (s, st.2 + 1)
    | (s, false) => (s, st.2)
  | .release =>
    match st.1.release with
    | (s, some _) => (s, st.2)
    | (s, none) => (s, st.2 - 1)
  | .fire wid _ => ((st.1.fireTimeout wid).1, st.2)

def semRun (st : Semaphore × Int) : List SemEvent → Semaphore × Int
  | [] => st
  | e :: es => semRun (semStep st e) es

/-- A timer for `wid` may fire at `now` only if the waiter is still queued
(its timeout was not cleared by `release`) and its deadline has passed
(`setTimeout(f, t)` never runs `f` before `t` elapses). -/
def fireEnabled (s : Semaphore) (wid now : Nat) : Bool :=
  s.queue.any (fun w => w.wid == wid && decide (w.enqueuedAt + w.timeoutMs ≤ now))

/-- Guard for one event: `release` may only be called by a current permit
holder (the "each release follows its own successful acquire" discipline);
timers fire only when enabled. -/
def semEventOk (st : Semaphore × Int) : SemEvent → Bool
  | .acquire _ _ => true
  | .release => decide (1 ≤ st.2)
  | .fire wid now => fireEnabled st.1 wid now

def semValid (st : Semaphore × Int) : List SemEvent → Bool
  | [] => true
  | e :: es => semEventOk st e && semValid (semStep st e) es

/-! ### Semaphore invariants -/

/-- Permit accounting: the counter is non-negative and counter + holders
equals the capacity. -/
def semPermInv (cap : Nat) (st : Semaphore × Int) : Prop :=
  0 ≤ st.1.permits ∧ st.1.permits + st.2 = (cap : Int) ∧ 0 ≤ st.2

/-- Queue shape: waiter ids appear in strictly increasing (= enqueue)
order, and all are below the id counter. -/
def semQueueInv (s : Semaphore) : Prop :=
  s.queue.Pairwise (fun a b => a.wid < b.wid) ∧ ∀ w ∈ s.queue, w.wid < s.nextId

/-! ## Operation poller (src/unnamed/part_007, first `VeoService` class)

`pollOperation(operationName, gcsPrefix, onProgress?)` drives one job to
completion.  External calls are supplied by an oracle `PollEnv` indexed by
loop iteration: `fetch n` is the outcome of the status-endpoint fetch in
iteration `n` (inside `checkOperationStatus`, whose own try/catch and
`!response.ok` branches all yield `{ done: false }`), and `gcs n` the
outcome of `storageService.listFiles` (whose errors `checkGcsFiles`
swallows into `[]`).  Times are rationals (ms): the backoff interval
becomes fractional after repeated ×1.5 growth.  Time advances by exactly
the slept interval.  The `try`/`catch` wrapping the loop body in the source
rethrows, but no statement in the body can throw (both helpers catch
internally, progress-callback calls are individually wrapped, `sleep` never
rejects), so the model has no such exit.  A progress-callback invocation is
recorded in the returned event list (when a callback was supplied); the
callback outcome `progressThrows` has no effect on control flow because
each invocation is wrapped in its own try/catch. -/

def MAX_POLL_DURATION_MS : ℚ := 5 * 60 * 1000

def INITIAL_POLL_INTERVAL_MS : ℚ := 1000

def MAX_POLL_INTERVAL_MS : ℚ := 10000

def BACKOFF_MULTIPLIER : ℚ := 3 / 2

/-- `{ done, response?, error? }` as returned by `checkOperationStatus`. -/
structure OpCheck where
  done : Bool
  response : Option String
  error : Option String
  deriving Repr, DecidableEq

/-- Outcome of one GET of the operation endpoint (including the token
fetch): a thrown transport error, a non-2xx response, or a parsed body. -/
inductive FetchResult where
  | transportError (msg : String)
  | httpError (statusCode : Nat) (body : String)
  | ok (done : Bool) (response : Option String) (error : Option String)

/-- `checkOperationStatus`, lines 141–171: any thrown error ⇒
`{ done: false }`; `!response.ok` (404 or otherwise) ⇒ `{ done: false }`;
otherwise `done: result.done || false` with the payloads passed through. -/
def VeoService.checkOperationStatus : FetchResult → OpCheck
  | .transportError _ => ⟨false, none, none⟩
  | .httpError _ _ => ⟨false, none, none⟩
  | .ok d r e => ⟨d, r, e⟩

/-- `checkGcsFiles`, lines 258–266: `storageService.listFiles` result on
success, `[]` on any thrown error. -/
def VeoService.checkGcsFiles : Except String (List String) → List String
  | .error _ => []
  | .ok files => files

structure PollEnv where
  fetch : Nat → FetchResult
  gcs : Nat → Except String (List String)
  progressThrows : Nat → Bool

structure VeoOperation where
  name : String
  done : Bool
  response : Option String
  error : Option String
  deriving Repr, DecidableEq

/-- Result of a poll run.  `stuck` is an artifact of the fuelled recursion
and is proved unreachable from `pollOperation`'s fuel. -/
inductive PollResult where
  | success (op : VeoOperation)
  | timedOut (msg : String)
  | stuck
  deriving Repr, DecidableEq

/-- The polling loop, lines 184–256.  One iteration: deadline check; invoke
the progress callback with `min(elapsed / 180000, 0.95)` (recorded in the
event list when a callback is supplied); status check — if done, invoke the
callback at 1.0 and return the operation; GCS fallback — if any file is
listed, invoke the callback at 1.0 and return a done operation; otherwise
sleep the current interval and grow it by ×1.5 capped at 10 s. -/
def pollGo (env : PollEnv) (hasCb : Bool) (opName : String) :
    Nat → Nat → ℚ → ℚ → PollResult × List ℚ
  | 0, _, elapsed, _ =>
    if elapsed < MAX_POLL_DURATION_MS then (.stuck, [])
    else (.timedOut "Generation timed out after 5 minutes", [])
  | fuel + 1, n, elapsed, interval =>
    if elapsed < MAX_POLL_DURATION_MS then
      let progress : ℚ := min (elapsed / 180000) (19 / 20)
      let evs0 : List ℚ := if hasCb then [progress] else []
      let st := VeoService.checkOperationStatus (env.fetch n)
      if st.done then
        (.success ⟨opName, true, st.response, st.error⟩,
          evs0 ++ if hasCb then [1] else [])
      else
        let files := VeoService.checkGcsFiles (env.gcs n)
        if 0 < files.length then
          (.success ⟨opName, true, none, none⟩,
            evs0 ++ if hasCb then [1] else [])
        else
          let next := pollGo env hasCb opName fuel (n + 1) (elapsed + interval)
            (min (interval * BACKOFF_MULTIPLIER) MAX_POLL_INTERVAL_MS)
          (next.1, evs0 ++ next.2)
    else (.timedOut "Generation timed out after 5 minutes", [])

/-- `pollOperation`.  The loop runs while `elapsed < 300000` and every
iteration sleeps at least 1000 ms, so 300 iterations of fuel always
suffice (proved below: `stuck` is unreachable). -/
def VeoService.pollOperation (env : PollEnv) (hasCb : Bool) (opName : String) :
    PollResult × List ℚ :=
  pollGo env hasCb opName 300 0 0 INITIAL_POLL_INTERVAL_MS

/-- Elapsed time at the start of iteration `k`, starting from elapsed `e`
and interval `i`: each iteration adds the interval, then grows it. -/
def elapsedPlus : ℚ → ℚ → Nat → ℚ
  | e, _, 0 => e
  | e, i, k + 1 =>
    elapsedPlus (e + i) (min (i * BACKOFF_MULTIPLIER) MAX_POLL_INTERVAL_MS) k

/-- Witness environment: status check never reports done, GCS listing is
empty for the first two iterations and then contains one object. -/
def pollEnvFallback : PollEnv where
  fetch := fun _ => .ok false none none
  gcs := fun m => if m < 2 then .ok [] else .ok ["video.mp4"]
  progressThrows := fun _ => false

/-- Witness environment: every status fetch throws a transport error and
every GCS listing throws. -/
def pollEnvAllErrors : PollEnv where
  fetch := fun _ => .transportError "ECONNRESET"
  gcs := fun _ => .error "storage unavailable"
  progressThrows := fun n => n == 0

/-- Same as `pollEnvAllErrors` but with a callback that never throws. -/
def pollEnvAllErrorsQuiet : PollEnv where
  fetch := fun _ => .transportError "ECONNRESET"
  gcs := fun _ => .error "storage unavailable"
  progressThrows := fun _ => false

/-- Witness environment: the status check reports done on the first
iteration. -/
def pollEnvDone : PollEnv where
  fetch := fun _ => .ok true (some "resp") none
  gcs := fun _ => .ok []
  progressThrows := fun _ => false

/-! ## Request Ledger (src/src/database/request-tracking.service.ts)

Each service method wraps its query in try/catch; a storage-layer failure
is logged and swallowed (writes leave the database unchanged, reads return
a neutral value).  The `storeOk : Bool` argument selects the branch.  Time
is in ms; the SQL `NOW()` is the `now` argument.  The source column
`gcs_prefix` is modelled by the field `gcs_loc`.  Note that every UPDATE
has only `WHERE id = ...` — no predicate on the current status. -/

inductive VideoRequestStatus where
  | pending | generating | completed | failed | timeout
  deriving Repr, DecidableEq

structure VideoRequestRow where
  id : String
  user_id : String
  guild_id : String
  channel_id : String
  prompt : String
  status : VideoRequestStatus
  operation_name : Option String
  gcs_loc : Option String
  created_at : Nat
  started_at : Option Nat
  completed_at : Option Nat
  duration_ms : Option Int
  video_urls : Option (List String)
  error_message : Option String
  deriving Repr, DecidableEq

abbrev RequestDb := List VideoRequestRow

/-- `UPDATE video_requests SET ... WHERE id = <id>` -/
def dbUpdate (db : RequestDb) (id : String)
    (f : VideoRequestRow → VideoRequestRow) : RequestDb :=
  db.map fun r => if r.id = id then f r else r

def MS_PER_HOUR : Nat := 3600000

/-- `setGenerating`, lines 69–97: unconditional update by id — sets status
`generating`, stores the operation name and result location, and
`started_at = NOW()`.  No check of the current status. -/
def RequestTrackingService.setGenerating (storeOk : Bool)
    (id operationName loc : String) (now : Nat) (db : RequestDb) : RequestDb :=
  if storeOk then
    dbUpdate db id fun r =>
      { r with status := VideoRequestStatus.generating,
               operation_name := some operationName,
               gcs_loc := some loc,
               started_at := some now }
  else db

/-- `setCompleted`, lines 99–123: unconditional update by id — sets status
`completed`, stores the URLs, `completed_at = NOW()`, and
`duration_ms = EXTRACT(EPOCH FROM (NOW() - started_at)) * 1000` (SQL NULL
arithmetic: NULL when `started_at` is NULL, modelled by `Option.map`). -/
def RequestTrackingService.setCompleted (storeOk : Bool) (id : String)
    (videoUrls : List String) (now : Nat) (db : RequestDb) : RequestDb :=
  if storeOk then
    dbUpdate db id fun r =>
      { r with status := VideoRequestStatus.completed,
               video_urls := some videoUrls,
               completed_at := some now,
               duration_ms := r.started_at.map fun t => (now : Int) - (t : Int) }
  else db

/-- `setFailed`, lines 125–161: sanitizes the message to 500 characters;
unconditional update by id; duration via the NULL-safe CASE. -/
def RequestTrackingService.setFailed (storeOk : Bool) (id errorMessage : String)
    (now : Nat) (db : RequestDb) : RequestDb :=
  if storeOk then
    dbUpdate db id fun r =>
      { r with status := VideoRequestStatus.failed,
               error_message := some (errorMessage.take 500),
               completed_at := some now,
               duration_ms := r.started_at.map fun t => (now : Int) - (t : Int) }
  else db

/-- `setTimeout`, lines 163–190 (default message
"Generation timed out after 5 minutes"; not truncated). -/
def RequestTrackingService.setTimeout (storeOk : Bool) (id : String)
    (errorMessage : String) (now : Nat) (db : RequestDb) : RequestDb :=
  if storeOk then
    dbUpdate db id fun r =>
      { r with status := VideoRequestStatus.timeout,
               error_message := some errorMessage,
               completed_at := some now,
               duration_ms := r.started_at.map fun t => (now : Int) - (t : Int) }
  else db

/-- `countRecentRequests`, lines 245–267: count of the user's rows with
`created_at >= NOW() - hoursAgo hours`; 0 on a store error. -/
def RequestTrackingService.countRecentRequests (storeOk : Bool)
    (userId : String) (hoursAgo : Nat) (now : Nat) (db : RequestDb) : Nat :=
  if storeOk then
    (db.filter fun r =>
      r.user_id == userId &&
        decide (now - hoursAgo * MS_PER_HOUR ≤ r.created_at)).length
  else 0

/-- `getOldestRequestTime`, lines 269–293: earliest in-window `created_at`
(`ORDER BY created_at ASC LIMIT 1`); `null` on a store error. -/
def RequestTrackingService.getOldestRequestTime (storeOk : Bool)
    (userId : String) (hoursAgo : Nat) (now : Nat) (db : RequestDb) :
    Option Nat :=
  if storeOk then
    ((db.filter fun r =>
      r.user_id == userId &&
        decide (now - hoursAgo * MS_PER_HOUR ≤ r.created_at)).map
      VideoRequestRow.created_at).min?
  else none

def insertByCreated (r : VideoRequestRow) : RequestDb → RequestDb
  | [] => [r]
  | x :: xs =>
    if r.created_at < x.created_at then r :: x :: xs
    else x :: insertByCreated r xs

/-- `ORDER BY created_at ASC` (oldest first). -/
def sortByCreatedAsc (l : RequestDb) : RequestDb := l.foldr insertByCreated []

/-- `getIncompleteRequests`, lines 295–325: rows with status in
`{pending, generating}` created within `maxAgeHours`, oldest first; `[]`
on a store error. -/
def RequestTrackingService.getIncompleteRequests (storeOk : Bool)
    (maxAgeHours : Nat) (now : Nat) (db : RequestDb) : RequestDb :=
  if storeOk then
    sortByCreatedAsc (db.filter fun r =>
      (r.status == VideoRequestStatus.pending ||
        r.status == VideoRequestStatus.generating) &&
      decide (now - maxAgeHours * MS_PER_HOUR ≤ r.created_at))
  else []

/-! ## Quota gate (`RateLimitService`, src/src/veo/veo.service.ts lines
210–311)

`consume` calls `countRecentRequests` / `getOldestRequestTime`; those two
methods catch their own store errors internally (returning 0 / null), so
`consume`'s own catch branch (`{ allowed: true, remaining: 0 }`) is
unreachable via a store failure — in the model nothing can throw.  The
source also passes `requestType` as a third argument to both tracking
queries, but the tracking-service signatures take only two parameters, so
the type filter is ignored there. -/

inductive RequestType where
  | veo | banana
  deriving Repr, DecidableEq

def RateLimitService.getQuotaLimit : RequestType → Nat
  | .banana => 10
  | .veo => 5

structure RateLimitResult where
  allowed : Bool
  remaining : Nat
  resetTime : Option Nat
  waitSeconds : Option Int
  deriving Repr, DecidableEq

/-- `consume`, lines 228–287: deny with a wait estimate when the in-window
count reaches the category limit; otherwise allow with the remaining
quota.  `Math.ceil((resetTime - Date.now()) / 1000)` clamped at 0. -/
def RateLimitService.consume (storeOk : Bool) (userId : String)
    (requestType : RequestType) (now : Nat) (db : RequestDb) :
    RateLimitResult :=
  let quotaLimit := RateLimitService.getQuotaLimit requestType
  let count := RequestTrackingService.countRecentRequests storeOk userId 24 now db
  if quotaLimit ≤ count then
    match RequestTrackingService.getOldestRequestTime storeOk userId 24 now db with
    | some t =>
      let resetTime := t + 24 * 60 * 60 * 1000
      { allowed := false, remaining := 0, resetTime := some resetTime,
        waitSeconds := some (max 0 (((resetTime : Int) - (now : Int) + 999).fdiv 1000)) }
    | none =>
      { allowed := false, remaining := 0, resetTime := none,
        waitSeconds := some 3600 }
  else
    { allowed := true, remaining := quotaLimit - count,
      resetTime := none, waitSeconds := none }

/-! ## Resumption coordinator (src/src/discord/task-resume.service.ts)

One item of `resumeIncompleteTasks`' batch loop (lines 64–122) together
with `resumePendingRequest`, `resumeGeneratingRequest` and
`pollAndComplete`.  External capabilities are an oracle `ItemEnv`
(generation start, poll outcome, storage listing, notification delivery);
ledger writes also record an `RAction` so that which capabilities were
invoked is observable.  `Promise.allSettled` over a batch of three is
modelled as sequential left-to-right processing (each item touches only
its own row); the per-item 10-minute `Promise.race` timer is not modelled.
`sendChannelMessage` catches all its errors and returns a boolean, so
notification failure never affects the ledger outcome. -/

inductive RAction where
  | startGen (id : String)
  | markGenerating (id : String)
  | poll (id : String)
  | listFiles (id : String)
  | markCompleted (id : String) (urls : List String)
  | markFailed (id msg : String)
  | markTimeout (id msg : String)
  | notify (id : String)
  deriving Repr, DecidableEq

structure ItemEnv where
  storeOk : Bool
  startGenResult : Except String String
  pollResult : Except String Unit
  listFilesResult : Except String (List String)
  notifyOk : Bool

/-- `buildOutputPrefix` (src/src/storage/storage.service.ts lines 79–86). -/
def StorageService.buildOutputLoc
    (guildId channelId userId requestId : String) : String :=
  "discord/" ++ guildId ++ "/" ++ channelId ++ "/" ++ userId ++ "/" ++
    requestId ++ "/"

/-- The default bucket name (`OUTPUT_BUCKET` env var default). -/
def OUTPUT_BUCKET : String := "discord-video-gen-bot-test"

/-- `publicUrl` (storage.service.ts lines 75–77). -/
def StorageService.publicUrl (objectName : String) : String :=
  "https://storage.googleapis.com/" ++ OUTPUT_BUCKET ++ "/" ++ objectName

/-- `String.prototype.includes`: `needle` occurs in `hay`. -/
def hasSubstr (needle hay : String) : Bool := 1 < (hay.splitOn needle).length

/-- `pollAndComplete`, lines 244–307: poll the operation; list the result
files; if none, `setFailed`; otherwise publish URLs, `setCompleted` and
send the (best-effort) notification.  A poll or listing error propagates
to the caller's catch. -/
def TaskResumeService.pollAndComplete (env : ItemEnv) (now : Nat)
    (id : String) (db : RequestDb) :
    Except String Unit × RequestDb × List RAction :=
  match env.pollResult with
  | .error e => (.error e, db, [.poll id])
  | .ok _ =>
    match env.listFilesResult with
    | .error e => (.error e, db, [.poll id, .listFiles id])
    | .ok files =>
      if files.isEmpty then
        (.ok (), RequestTrackingService.setFailed env.storeOk id
          "No video files found after generation" now db,
          [.poll id, .listFiles id,
            .markFailed id "No video files found after generation"])
      else
        (.ok (), RequestTrackingService.setCompleted env.storeOk id
          (files.map StorageService.publicUrl) now db,
          [.poll id, .listFiles id,
            .markCompleted id (files.map StorageService.publicUrl),
            .notify id])

/-- `resumePendingRequest`, lines 151–200: start generation with the
stored parameters, `setGenerating`, then poll; its catch converts any
error to `setFailed`. -/
def TaskResumeService.resumePendingRequest (env : ItemEnv) (now : Nat)
    (r : VideoRequestRow) (db : RequestDb) : RequestDb × List RAction :=
  let loc := StorageService.buildOutputLoc r.guild_id r.channel_id r.user_id r.id
  match env.startGenResult with
  | .error e =>
    (RequestTrackingService.setFailed env.storeOk r.id e now db,
      [.startGen r.id, .markFailed r.id e])
  | .ok opName =>
    let db1 := RequestTrackingService.setGenerating env.storeOk r.id opName loc now db
    match TaskResumeService.pollAndComplete env now r.id db1 with
    | (.ok _, db2, acts) => (db2, .startGen r.id :: .markGenerating r.id :: acts)
    | (.error e, db2, acts) =>
      (RequestTrackingService.setFailed env.storeOk r.id e now db2,
        .startGen r.id :: .markGenerating r.id :: (acts ++ [.markFailed r.id e]))

/-- `resumeGeneratingRequest`, lines 202–242: missing handle/location ⇒
`setFailed`; otherwise poll; its catch maps "404"/"not found" errors to
`setTimeout` (default message) and everything else to `setFailed`. -/
def TaskResumeService.resumeGeneratingRequest (env : ItemEnv) (now : Nat)
    (r : VideoRequestRow) (db : RequestDb) : RequestDb × List RAction :=
  match r.operation_name with
  | none =>
    (RequestTrackingService.setFailed env.storeOk r.id "Missing operation_name" now db,
      [.markFailed r.id "Missing operation_name"])
  | some _ =>
    match r.gcs_loc with
    | none =>
      (RequestTrackingService.setFailed env.storeOk r.id "Missing gcs_prefix" now db,
        [.markFailed r.id "Missing gcs_prefix"])
    | some _ =>
      match TaskResumeService.pollAndComplete env now r.id db with
      | (.ok _, db2, acts) => (db2, acts)
      | (.error e, db2, acts) =>
        if hasSubstr "404" e || hasSubstr "not found" e then
          (RequestTrackingService.setTimeout env.storeOk r.id
            "Generation timed out after 5 minutes" now db2,
            acts ++ [.markTimeout r.id "Generation timed out after 5 minutes"])
        else
          (RequestTrackingService.setFailed env.storeOk r.id e now db2,
            acts ++ [.markFailed r.id e])

/-- One item of the batch loop, lines 64–122: a `pending` request older
than 24 hours (`ageHours > 24`, i.e. `now - created_at` strictly above 24
hours) is marked expired via `setTimeout` and skipped; otherwise the
pending / generating resume path runs. -/
def TaskResumeService.resumeItem (env : ItemEnv) (now : Nat)
    (r : VideoRequestRow) (db : RequestDb) : RequestDb × List RAction :=
  if r.status = VideoRequestStatus.pending ∧
      24 * MS_PER_HOUR < now - r.created_at then
    (RequestTrackingService.setTimeout env.storeOk r.id
      "Request expired (>24 hours old)" now db,
      [.markTimeout r.id "Request expired (>24 hours old)"])
  else if r.status = VideoRequestStatus.pending then
    TaskResumeService.resumePendingRequest env now r db
  else
    TaskResumeService.resumeGeneratingRequest env now r db

/-- `resumeIncompleteTasks`, lines 25–149: fetch the incomplete requests
(24 h window); if none, return immediately; otherwise process them (the
source: batches of 3, `allSettled`; modelled sequentially oldest-first). -/
def TaskResumeService.resumeAll (envf : String → ItemEnv) (storeOk : Bool)
    (now : Nat) (db : RequestDb) : RequestDb × List RAction :=
  let reqs := RequestTrackingService.getIncompleteRequests storeOk 24 now db
  if reqs.isEmpty then (db, [])
  else
    reqs.foldl (fun acc r =>
      let step := TaskResumeService.resumeItem (envf r.id) now r acc.1
      (step.1, acc.2 ++ step.2)) (db, [])

/-- Witness row: a fresh `pending` request. -/
def rowPending : VideoRequestRow :=
  { id := "r1", user_id := "u1", guild_id := "g1", channel_id := "c1",
    prompt := "a cat", status := .pending, operation_name := none,
    gcs_loc := none, created_at := 1000, started_at := none,
    completed_at := none, duration_ms := none, video_urls := none,
    error_message := none }

/-- Witness environment for a resume item with a healthy store. -/
def envResumeOk : ItemEnv :=
  { storeOk := true, startGenResult := .ok "op-1", pollResult := .ok (),
    listFilesResult := .ok ["discord/g1/c1/u1/r1/video0.mp4"],
    notifyOk := true }

theorem tryAcquire_pos {s : Semaphore} (now t : Nat) (h : 0 < s.permits) :
    s.tryAcquire now t = ({ s with permits := s.permits - 1 }, true) := by
  simp [Semaphore.tryAcquire, h]

theorem tryAcquire_nonpos {s : Semaphore} (now t : Nat) (h : ¬ 0 < s.permits) :
    s.tryAcquire now t =
      ({ s with queue := s.queue ++ [⟨s.nextId, now, t⟩],
                nextId := s.nextId + 1 }, false) := by
  simp [Semaphore.tryAcquire, h]

theorem release_nil {s : Semaphore} (h : s.queue = []) :
    s.release = ({ s with permits := s.permits + 1 }, none) := by
  unfold Semaphore.release
  rw [h]

theorem release_cons {s : Semaphore} {w : Waiter} {rest : List Waiter}
    (h : s.queue = w :: rest) :
    s.release = ({ s with queue := rest }, some w.wid) := by
  unfold Semaphore.release
  rw [h]

theorem removeFirstByWid_sublist (wid : Nat) :
    ∀ (l : List Waiter) (w : Waiter) (q : List Waiter),
      removeFirstByWid wid l = some (w, q) → q.Sublist l := by
  intro l
  induction l with
  | nil => intro w q h; simp [removeFirstByWid] at h
  | cons x xs ih =>
    intro w q h
    by_cases hx : x.wid == wid
    · simp [removeFirstByWid, hx] at h
      rcases h with ⟨h1, h2⟩
      subst h2
      exact List.sublist_cons_self x xs
    · simp only [removeFirstByWid, hx, Bool.false_eq_true, if_false] at h
      rcases hrec : removeFirstByWid wid xs with _ | ⟨w', q'⟩
      · rw [hrec] at h; simp at h
      · rw [hrec] at h
        simp only [Option.map_some', Option.some.injEq, Prod.mk.injEq] at h
        rcases h with ⟨h1, h2⟩
        subst h2
        exact (ih w' q' hrec).cons₂ x

theorem fireTimeout_queue_sublist (s : Semaphore) (wid : Nat) :
    (s.fireTimeout wid).1.queue.Sublist s.queue := by
  unfold Semaphore.fireTimeout
  rcases h : removeFirstByWid wid s.queue with _ | ⟨w, q⟩
  · simp
  · simpa using removeFirstByWid_sublist wid s.queue w q h

theorem fireTimeout_permits (s : Semaphore) (wid : Nat) :
    (s.fireTimeout wid).1.permits = s.permits := by
  unfold Semaphore.fireTimeout
  rcases removeFirstByWid wid s.queue with _ | ⟨_, _⟩ <;> simp

theorem fireTimeout_nextId (s : Semaphore) (wid : Nat) :
    (s.fireTimeout wid).1.nextId = s.nextId := by
  unfold Semaphore.fireTimeout
  rcases removeFirstByWid wid s.queue with _ | ⟨_, _⟩ <;> simp

theorem semStep_queueInv {st : Semaphore × Int} (e : SemEvent)
    (h : semQueueInv st.1) : semQueueInv (semStep st e).1 := by
  obtain ⟨hpw, hbound⟩ := h
  cases e with
  | acquire now t =>
    by_cases hp : 0 < st.1.permits
    · simp only [semStep, tryAcquire_pos now t hp]
      exact ⟨hpw, hbound⟩
    · simp only [semStep, tryAcquire_nonpos now t hp]
      constructor
      · rw [List.pairwise_append]
        refine ⟨hpw, List.pairwise_singleton _ _, ?_⟩
        intro a ha b hb
        simp at hb
        subst hb
        exact hbound a ha
      · intro w hw
        rcases List.mem_append.1 hw with hw | hw
        · exact Nat.lt_succ_of_lt (hbound w hw)
        · simp at hw; subst hw; exact Nat.lt_succ_self _
  | release =>
    rcases hq : st.1.queue with _ | ⟨w, rest⟩
    · simp only [semStep, release_nil hq]
      refine ⟨by simp [hq], ?_⟩
      intro w hw
      exact hbound w hw
    · simp only [semStep, release_cons hq]
      refine ⟨?_, ?_⟩
      · have := hpw; rw [hq] at this
        exact (List.pairwise_cons.1 this).2
      · intro x hx
        exact hbound x (by rw [hq]; exact List.mem_cons_of_mem _ hx)
  | fire wid now =>
    refine ⟨?_, ?_⟩
    · exact List.Pairwise.sublist (fireTimeout_queue_sublist st.1 wid) hpw
    · intro w hw
      have hmem : w ∈ st.1.queue :=
        (fireTimeout_queue_sublist st.1 wid).subset hw
      rw [semStep, fireTimeout_nextId]
      exact hbound w hmem

theorem semRun_queueInv (es : List SemEvent) :
    ∀ st : Semaphore × Int, semQueueInv st.1 → semQueueInv (semRun st es).1 := by
  induction es with
  | nil => intro st h; exact h
  | cons e es ih =>
    intro st h
    exact ih (semStep st e) (semStep_queueInv e h)

theorem semQueueInv_mk0 (cap : Nat) : semQueueInv (Semaphore.mk0 cap) := by
  constructor
  · simp [Semaphore.mk0]
  · simp [Semaphore.mk0]

theorem semStep_permInv {cap : Nat} {st : Semaphore × Int} {e : SemEvent}
    (h : semPermInv cap st) (hv : semEventOk st e = true) :
    semPermInv cap (semStep st e) := by
  obtain ⟨h1, h2, h3⟩ := h
  cases e with
  | acquire now t =>
    by_cases hp : 0 < st.1.permits
    · simp only [semStep, tryAcquire_pos now t hp]
      refine ⟨?_, ?_, ?_⟩ <;> · simp only []; omega
    · simp only [semStep, tryAcquire_nonpos now t hp]
      exact ⟨h1, h2, h3⟩
  | release =>
    have hheld : 1 ≤ st.2 := by
      simpa [semEventOk] using hv
    rcases hq : st.1.queue with _ | ⟨w, rest⟩
    · simp only [semStep, release_nil hq]
      refine ⟨?_, ?_, ?_⟩ <;> · simp only []; omega
    · simp only [semStep, release_cons hq]
      exact ⟨h1, h2, h3⟩
  | fire wid now =>
    refine ⟨?_, ?_, h3⟩
    · rw [semStep, fireTimeout_permits]; exact h1
    · rw [semStep, fireTimeout_permits]; exact h2

theorem semRun_permInv {cap : Nat} (es : List SemEvent) :
    ∀ st : Semaphore × Int, semPermInv cap st → semValid st es = true →
      semPermInv cap (semRun st es) := by
  induction es with
  | nil => intro st h _; exact h
  | cons e es ih =>
    intro st h hv
    rw [semValid, Bool.and_eq_true] at hv
    exact ih (semStep st e) (semStep_permInv h hv.1) hv.2

theorem semValid_append (p : List SemEvent) :
    ∀ (st : Semaphore × Int) (t : List SemEvent),
      semValid st (p ++ t) = (semValid st p && semValid (semRun st p) t) := by
  induction p with
  | nil => intro st t; simp [semValid, semRun]
  | cons e es ih =>
    intro st t
    rw [List.cons_append, semValid, semValid, semRun, ih, Bool.and_assoc]

theorem semRun_append (p : List SemEvent) :
    ∀ (st : Semaphore × Int) (t : List SemEvent),
      semRun st (p ++ t) = semRun (semRun st p) t := by
  induction p with
  | nil => intro st t; simp [semRun]
  | cons e es ih =>
    intro st t
    rw [List.cons_append, semRun, semRun, ih]

/-! ### Claim theorems for the semaphore -/

theorem wid_unique : ∀ {l : List Waiter},
    l.Pairwise (fun a b => a.wid < b.wid) →
    ∀ {x y : Waiter}, x ∈ l → y ∈ l → x.wid = y.wid → x = y := by
  intro l
  induction l with
  | nil => intro _ x y hx; cases hx
  | cons a as ih =>
    intro hpw x y hx hy hxy
    rcases List.mem_cons.1 hx with rfl | hx'
    · rcases List.mem_cons.1 hy with rfl | hy'
      · rfl
      · have := (List.pairwise_cons.1 hpw).1 y hy'; omega
    · rcases List.mem_cons.1 hy with rfl | hy'
      · have := (List.pairwise_cons.1 hpw).1 x hx'; omega
      · exact ih (List.pairwise_cons.1 hpw).2 hx' hy' hxy

theorem removeFirstByWid_spec : ∀ {l : List Waiter},
    l.Pairwise (fun a b => a.wid < b.wid) →
    ∀ {w : Waiter}, w ∈ l → ∀ {wid : Nat}, w.wid = wid →
    ∃ q, removeFirstByWid wid l = some (w, q) ∧
      (∀ x ∈ q, x.wid ≠ wid) ∧ q.length + 1 = l.length := by
  intro l
  induction l with
  | nil => intro _ w hw; cases hw
  | cons a as ih =>
    intro hpw w hw wid hwid
    by_cases ha : a.wid = wid
    · have hwa : w = a := by
        rcases List.mem_cons.1 hw with rfl | hw'
        · rfl
        · have := (List.pairwise_cons.1 hpw).1 w hw'; omega
      subst hwa
      refine ⟨as, ?_, ?_, rfl⟩
      · simp [removeFirstByWid, ha]
      · intro x hx
        have := (List.pairwise_cons.1 hpw).1 x hx
        omega
    · have hw' : w ∈ as := by
        rcases List.mem_cons.1 hw with rfl | hw'
        · omega
        · exact hw'
      obtain ⟨q, hq, hqn, hql⟩ := ih (List.pairwise_cons.1 hpw).2 hw' hwid
      refine ⟨a :: q, ?_, ?_, ?_⟩
      · have hab : (a.wid == wid) = false := by
          simpa using ha
        simp [removeFirstByWid, hab, hq]
      · intro x hx
        rcases List.mem_cons.1 hx with rfl | hx'
        · exact ha
        · exact hqn x hx'
      · simpa using hql

/-- C2 (invariants): for any valid history of acquire / release / timer
events on a semaphore of capacity `cap` — validity demanding exactly that
each `release` is performed by a task that has previously completed its own
acquire and not yet released (the "matched pairs" discipline) — the
available-permit counter stays within `[0, cap]` at every step of the
history (i.e. after every prefix). -/
theorem semaphore_available_permits_bounded (cap : Nat) (es p t : List SemEvent)
    (hsplit : es = p ++ t)
    (hv : semValid (Semaphore.mk0 cap, 0) es = true) :
    0 ≤ (semRun (Semaphore.mk0 cap, 0) p).1.getAvailablePermits ∧
      (semRun (Semaphore.mk0 cap, 0) p).1.getAvailablePermits ≤ (cap : Int) := by
  subst hsplit
  rw [semValid_append, Bool.and_eq_true] at hv
  have h0 : semPermInv cap (Semaphore.mk0 cap, 0) := by
    refine ⟨?_, ?_, ?_⟩ <;> simp [Semaphore.mk0]
  obtain ⟨h1, h2, h3⟩ := semRun_permInv p _ h0 hv.1
  constructor
  · exact h1
  · unfold Semaphore.getAvailablePermits
    omega

theorem semaphore_available_permits_bounded_witness :
    0 ≤ (semRun (Semaphore.mk0 1, 0) [SemEvent.acquire 0 30000]).1.getAvailablePermits ∧
      (semRun (Semaphore.mk0 1, 0) [SemEvent.acquire 0 30000]).1.getAvailablePermits ≤ (1 : Int) :=
  semaphore_available_permits_bounded 1
    ([SemEvent.acquire 0 30000] ++ [SemEvent.release])
    [SemEvent.acquire 0 30000] [SemEvent.release] rfl (by decide)

/-- C3 (temporal): in any reachable semaphore state with a non-empty wait
queue, `release()` wakes exactly the head (oldest) waiter, hands the permit
over without touching the available-permit counter, and the woken waiter's
id precedes (i.e. was enqueued before) that of every waiter still queued —
so no later-enqueued waiter ever overtakes an earlier one that is still
waiting. -/
theorem semaphore_release_wakes_oldest_waiter (cap : Nat) (es : List SemEvent)
    (w : Waiter) (rest : List Waiter)
    (hq : (semRun (Semaphore.mk0 cap, 0) es).1.queue = w :: rest) :
    ((semRun (Semaphore.mk0 cap, 0) es).1.release.2 = some w.wid) ∧
    ((semRun (Semaphore.mk0 cap, 0) es).1.release.1.getAvailablePermits =
      (semRun (Semaphore.mk0 cap, 0) es).1.getAvailablePermits) ∧
    ((semRun (Semaphore.mk0 cap, 0) es).1.release.1.queue = rest) ∧
    ∀ x ∈ rest, w.wid < x.wid := by
  have hinv := semRun_queueInv es (Semaphore.mk0 cap, 0) (semQueueInv_mk0 cap)
  have hrel := release_cons hq
  refine ⟨by rw [hrel], by rw [hrel]; rfl, by rw [hrel], ?_⟩
  have hpw := hinv.1
  rw [hq] at hpw
  exact (List.pairwise_cons.1 hpw).1

theorem semaphore_release_wakes_oldest_waiter_witness :
    ((semRun (Semaphore.mk0 1, 0)
        [SemEvent.acquire 0 30000, SemEvent.acquire 1 100,
         SemEvent.acquire 2 200]).1.release.2 = some (Waiter.mk 0 1 100).wid) ∧
    ((semRun (Semaphore.mk0 1, 0)
        [SemEvent.acquire 0 30000, SemEvent.acquire 1 100,
         SemEvent.acquire 2 200]).1.release.1.getAvailablePermits =
      (semRun (Semaphore.mk0 1, 0)
        [SemEvent.acquire 0 30000, SemEvent.acquire 1 100,
         SemEvent.acquire 2 200]).1.getAvailablePermits) ∧
    ((semRun (Semaphore.mk0 1, 0)
        [SemEvent.acquire 0 30000, SemEvent.acquire 1 100,
         SemEvent.acquire 2 200]).1.release.1.queue = [Waiter.mk 1 2 200]) ∧
    ∀ x ∈ [Waiter.mk 1 2 200], (Waiter.mk 0 1 100).wid < x.wid :=
  semaphore_release_wakes_oldest_waiter 1
    [SemEvent.acquire 0 30000, SemEvent.acquire 1 100, SemEvent.acquire 2 200]
    (Waiter.mk 0 1 100) [Waiter.mk 1 2 200] (by decide)

/-- C4 (error handling): in any valid history containing the firing of
waiter `wid`'s acquire timer, if the waiter is still queued when the timer
fires then (i) the firing time is no earlier than its enqueue time plus its
timeout, (ii) the call is rejected with the semaphore-timeout error, and
(iii) the waiter has been spliced out of the wait queue — exactly one entry
was removed, and no entry with that id remains, so a subsequent
`getQueueDepth()` no longer counts it. -/
theorem semaphore_acquire_timeout_no_leaked_waiter (cap : Nat)
    (es₁ es₂ : List SemEvent) (wid now : Nat) (w : Waiter)
    (hv : semValid (Semaphore.mk0 cap, 0)
            (es₁ ++ SemEvent.fire wid now :: es₂) = true)
    (hw : w ∈ (semRun (Semaphore.mk0 cap, 0) es₁).1.queue)
    (hwid : w.wid = wid) :
    w.enqueuedAt + w.timeoutMs ≤ now ∧
    ((semRun (Semaphore.mk0 cap, 0) es₁).1.fireTimeout wid).2 =
      some ("Semaphore acquire timeout after " ++ toString w.timeoutMs ++ "ms") ∧
    (∀ x ∈ ((semRun (Semaphore.mk0 cap, 0) es₁).1.fireTimeout wid).1.queue,
      x.wid ≠ wid) ∧
    ((semRun (Semaphore.mk0 cap, 0) es₁).1.fireTimeout wid).1.getQueueDepth + 1 =
      (semRun (Semaphore.mk0 cap, 0) es₁).1.getQueueDepth := by
  have hinv := semRun_queueInv es₁ (Semaphore.mk0 cap, 0) (semQueueInv_mk0 cap)
  rw [semValid_append, Bool.and_eq_true] at hv
  have hstep := hv.2
  rw [semValid, Bool.and_eq_true] at hstep
  have hen : fireEnabled (semRun (Semaphore.mk0 cap, 0) es₁).1 wid now = true :=
    hstep.1
  rw [fireEnabled, List.any_eq_true] at hen
  obtain ⟨x, hxmem, hx⟩ := hen
  rw [Bool.and_eq_true, beq_iff_eq, decide_eq_true_eq] at hx
  have hxw : x = w := wid_unique hinv.1 hxmem hw (by omega)
  rw [hxw] at hx
  obtain ⟨q, hq, hqn, hql⟩ := removeFirstByWid_spec hinv.1 hw hwid
  have hfd : (semRun (Semaphore.mk0 cap, 0) es₁).1.fireTimeout wid =
      ({ (semRun (Semaphore.mk0 cap, 0) es₁).1 with queue := q },
        some ("Semaphore acquire timeout after " ++ toString w.timeoutMs ++ "ms")) := by
    unfold Semaphore.fireTimeout
    rw [hq]
  refine ⟨hx.2, ?_, ?_, ?_⟩
  · rw [hfd]
  · rw [hfd]
    exact hqn
  · rw [hfd]
    unfold Semaphore.getQueueDepth
    exact hql

theorem semaphore_acquire_timeout_no_leaked_waiter_witness :
    (Waiter.mk 0 5 100).enqueuedAt + (Waiter.mk 0 5 100).timeoutMs ≤ 105 ∧
    ((semRun (Semaphore.mk0 1, 0)
        [SemEvent.acquire 0 30000, SemEvent.acquire 5 100]).1.fireTimeout 0).2 =
      some ("Semaphore acquire timeout after " ++
        toString (Waiter.mk 0 5 100).timeoutMs ++ "ms") ∧
    (∀ x ∈ ((semRun (Semaphore.mk0 1, 0)
        [SemEvent.acquire 0 30000, SemEvent.acquire 5 100]).1.fireTimeout 0).1.queue,
      x.wid ≠ 0) ∧
    ((semRun (Semaphore.mk0 1, 0)
        [SemEvent.acquire 0 30000, SemEvent.acquire 5 100]).1.fireTimeout 0).1.getQueueDepth + 1 =
      (semRun (Semaphore.mk0 1, 0)
        [SemEvent.acquire 0 30000, SemEvent.acquire 5 100]).1.getQueueDepth :=
  semaphore_acquire_timeout_no_leaked_waiter 1
    [SemEvent.acquire 0 30000, SemEvent.acquire 5 100] []
    0 105 (Waiter.mk 0 5 100) (by decide) (by decide) rfl

/-! ### Poller lemmas -/

theorem pollGo_deadline (env : PollEnv) (cb : Bool) (name : String)
    (fuel n : Nat) (e i : ℚ) (he : ¬ e < MAX_POLL_DURATION_MS) :
    pollGo env cb name fuel n e i =
      (.timedOut "Generation timed out after 5 minutes", []) := by
  cases fuel <;> simp [pollGo, he]

theorem min_interval_ge (i : ℚ) (hi : 1000 ≤ i) :
    1000 ≤ min (i * BACKOFF_MULTIPLIER) MAX_POLL_INTERVAL_MS := by
  refine le_min ?_ ?_
  · rw [BACKOFF_MULTIPLIER]; linarith
  · rw [MAX_POLL_INTERVAL_MS]; norm_num

theorem elapsedPlus_lower : ∀ (k : Nat) (e i : ℚ), 1000 ≤ i →
    e + 1000 * k ≤ elapsedPlus e i k := by
  intro k
  induction k with
  | zero => intro e i _; simp [elapsedPlus]
  | succ k ih =>
    intro e i hi
    have hstep : elapsedPlus e i (k + 1) =
        elapsedPlus (e + i) (min (i * BACKOFF_MULTIPLIER) MAX_POLL_INTERVAL_MS) k := rfl
    rw [hstep]
    have h1 := ih (e + i) _ (min_interval_ge i hi)
    have hcast : ((k + 1 : Nat) : ℚ) = (k : ℚ) + 1 := by push_cast; ring
    rw [hcast]
    linarith

theorem pollGo_result (env : PollEnv) (cb : Bool) (name : String) :
    ∀ (fuel n : Nat) (e i : ℚ), 1000 ≤ i →
      MAX_POLL_DURATION_MS ≤ e + 1000 * fuel →
      (∃ op, (pollGo env cb name fuel n e i).1 = .success op) ∨
        (pollGo env cb name fuel n e i).1 =
          .timedOut "Generation timed out after 5 minutes" := by
  intro fuel
  induction fuel with
  | zero =>
    intro n e i hi hb
    right
    simp only [Nat.cast_zero, mul_zero, add_zero] at hb
    rw [pollGo_deadline env cb name 0 n e i (not_lt.2 hb)]
  | succ fuel ih =>
    intro n e i hi hb
    by_cases he : e < MAX_POLL_DURATION_MS
    · by_cases hd : (VeoService.checkOperationStatus (env.fetch n)).done = true
      · left
        exact ⟨⟨name, true, (VeoService.checkOperationStatus (env.fetch n)).response,
          (VeoService.checkOperationStatus (env.fetch n)).error⟩,
          by simp [pollGo, he, hd]⟩
      · rw [Bool.not_eq_true] at hd
        by_cases hf : 0 < (VeoService.checkGcsFiles (env.gcs n)).length
        · left
          exact ⟨⟨name, true, none, none⟩, by simp [pollGo, he, hd, hf]⟩
        · have hb' : MAX_POLL_DURATION_MS ≤ (e + i) + 1000 * fuel := by
            have hcast : ((fuel + 1 : Nat) : ℚ) = (fuel : ℚ) + 1 := by
              push_cast; ring
            rw [hcast] at hb
            linarith
          have hrec := ih (n + 1) (e + i) _ (min_interval_ge i hi) hb'
          have hun : (pollGo env cb name (fuel + 1) n e i).1 =
              (pollGo env cb name fuel (n + 1) (e + i)
                (min (i * BACKOFF_MULTIPLIER) MAX_POLL_INTERVAL_MS)).1 := by
            simp [pollGo, he, hd, hf]
          rw [hun]
          exact hrec
    · right
      rw [pollGo_deadline env cb name _ n e i he]

theorem pollGo_fallback (env : PollEnv) (cb : Bool) (name : String) :
    ∀ (k fuel n : Nat) (e i : ℚ), k < fuel → 1000 ≤ i →
      (∀ m, (VeoService.checkOperationStatus (env.fetch m)).done = false) →
      (∀ j, j < k → VeoService.checkGcsFiles (env.gcs (n + j)) = []) →
      0 < (VeoService.checkGcsFiles (env.gcs (n + k))).length →
      elapsedPlus e i k < MAX_POLL_DURATION_MS →
      (pollGo env cb name fuel n e i).1 = .success ⟨name, true, none, none⟩ := by
  intro k
  induction k with
  | zero =>
    intro fuel n e i hk hi hst hempty hfiles hdl
    rcases fuel with _ | fuel
    · omega
    · have he : e < MAX_POLL_DURATION_MS := hdl
      have hd : (VeoService.checkOperationStatus (env.fetch n)).done = false := hst n
      have hf : 0 < (VeoService.checkGcsFiles (env.gcs n)).length := by
        simpa using hfiles
      simp [pollGo, he, hd, hf]
  | succ k ih =>
    intro fuel n e i hk hi hst hempty hfiles hdl
    rcases fuel with _ | fuel
    · omega
    · have he : e < MAX_POLL_DURATION_MS := by
        have hlow := elapsedPlus_lower (k + 1) e i hi
        have hpos : (0 : ℚ) < 1000 * ((k + 1 : Nat) : ℚ) := by
          have : (0 : ℚ) < ((k + 1 : Nat) : ℚ) := by
            exact_mod_cast Nat.succ_pos k
          linarith
        linarith
      have hd : (VeoService.checkOperationStatus (env.fetch n)).done = false := hst n
      have hf : ¬ 0 < (VeoService.checkGcsFiles (env.gcs n)).length := by
        have h0 := hempty 0 (Nat.succ_pos k)
        simp at h0
        simp [h0]
      have hempty' : ∀ j, j < k →
          VeoService.checkGcsFiles (env.gcs (n + 1 + j)) = [] := by
        intro j hj
        have heq : n + 1 + j = n + (j + 1) := by omega
        rw [heq]
        exact hempty (j + 1) (by omega)
      have hfiles' : 0 < (VeoService.checkGcsFiles (env.gcs (n + 1 + k))).length := by
        have heq : n + 1 + k = n + (k + 1) := by omega
        rw [heq]
        exact hfiles
      have hdl' : elapsedPlus (e + i)
          (min (i * BACKOFF_MULTIPLIER) MAX_POLL_INTERVAL_MS) k <
            MAX_POLL_DURATION_MS := hdl
      have hrec := ih fuel (n + 1) (e + i) _ (by omega)
        (min_interval_ge i hi) hst hempty' hfiles' hdl'
      have hun : (pollGo env cb name (fuel + 1) n e i).1 =
          (pollGo env cb name fuel (n + 1) (e + i)
            (min (i * BACKOFF_MULTIPLIER) MAX_POLL_INTERVAL_MS)).1 := by
        simp [pollGo, he, hd, hf]
      rw [hun]
      exact hrec

theorem getLast?_cons_of_some {α : Type} (x : α) {l : List α} {a : α}
    (h : l.getLast? = some a) : (x :: l).getLast? = some a := by
  cases l with
  | nil => simp at h
  | cons y ys => rw [List.getLast?_cons_cons]; exact h

theorem pollGo_head_event (env : PollEnv) (name : String) (fuel n : Nat)
    (e i : ℚ) (he : e < MAX_POLL_DURATION_MS) :
    (pollGo env true name (fuel + 1) n e i).2.head? =
      some (min (e / 180000) (19 / 20)) := by
  by_cases hd : (VeoService.checkOperationStatus (env.fetch n)).done = true
  · simp [pollGo, he, hd]
  · rw [Bool.not_eq_true] at hd
    by_cases hf : 0 < (VeoService.checkGcsFiles (env.gcs n)).length
    · simp [pollGo, he, hd, hf]
    · simp [pollGo, he, hd, hf]

theorem pollGo_env_congr (env env' : PollEnv) (hf : env.fetch = env'.fetch)
    (hg : env.gcs = env'.gcs) (cb : Bool) (name : String) :
    ∀ (fuel n : Nat) (e i : ℚ),
      pollGo env cb name fuel n e i = pollGo env' cb name fuel n e i := by
  intro fuel
  induction fuel with
  | zero => intro n e i; rfl
  | succ fuel ih =>
    intro n e i
    simp only [pollGo, hf, hg, ih]

theorem pollGo_success_last (env : PollEnv) (name : String) :
    ∀ (fuel n : Nat) (e i : ℚ) (op : VeoOperation) (evs : List ℚ),
      pollGo env true name fuel n e i = (.success op, evs) →
      evs.getLast? = some 1 := by
  intro fuel
  induction fuel with
  | zero =>
    intro n e i op evs h
    by_cases he : e < MAX_POLL_DURATION_MS <;> simp [pollGo, he] at h
  | succ fuel ih =>
    intro n e i op evs h
    by_cases he : e < MAX_POLL_DURATION_MS
    · by_cases hd : (VeoService.checkOperationStatus (env.fetch n)).done = true
      · simp [pollGo, he, hd] at h
        obtain ⟨h1, h2⟩ := h
        simp [← h2]
      · rw [Bool.not_eq_true] at hd
        by_cases hf : 0 < (VeoService.checkGcsFiles (env.gcs n)).length
        · simp [pollGo, he, hd, hf] at h
          obtain ⟨h1, h2⟩ := h
          simp [← h2]
        · rcases hnext : pollGo env true name fuel (n + 1) (e + i)
            (min (i * BACKOFF_MULTIPLIER) MAX_POLL_INTERVAL_MS) with ⟨r, evs'⟩
          simp [pollGo, he, hd, hf, hnext] at h
          obtain ⟨h1, h2⟩ := h
          have hlast := ih (n + 1) (e + i) _ op evs' (by rw [hnext, h1])
          rw [← h2]
          exact getLast?_cons_of_some _ hlast
    · rw [pollGo_deadline env true name _ n e i he] at h
      simp at h

/-- C5 (functional correctness): if the generation-API status check reports
not-done on every iteration, but the GCS probe of the result location
returns at least one file on iteration `k` (and nothing before), and
iteration `k` starts before the 5-minute deadline, then `pollOperation`
returns a done operation (success) instead of timing out. -/
theorem poller_storage_fallback_success (env : PollEnv) (cb : Bool)
    (name : String) (k : Nat)
    (hst : ∀ m, (VeoService.checkOperationStatus (env.fetch m)).done = false)
    (hempty : ∀ j, j < k → VeoService.checkGcsFiles (env.gcs j) = [])
    (hfiles : 0 < (VeoService.checkGcsFiles (env.gcs k)).length)
    (hdl : elapsedPlus 0 INITIAL_POLL_INTERVAL_MS k < MAX_POLL_DURATION_MS) :
    (VeoService.pollOperation env cb name).1 =
      .success ⟨name, true, none, none⟩ := by
  have hk : k < 300 := by
    have hlow := elapsedPlus_lower k 0 INITIAL_POLL_INTERVAL_MS
      (by norm_num [INITIAL_POLL_INTERVAL_MS])
    have h1 : (1000 : ℚ) * k < 300000 := by
      rw [MAX_POLL_DURATION_MS] at hdl
      norm_num at hdl hlow ⊢
      linarith
    have h2 : (k : ℚ) < 300 := by linarith
    exact_mod_cast h2
  have hempty0 : ∀ j, j < k → VeoService.checkGcsFiles (env.gcs (0 + j)) = [] := by
    intro j hj
    rw [Nat.zero_add]
    exact hempty j hj
  have hfiles0 : 0 < (VeoService.checkGcsFiles (env.gcs (0 + k))).length := by
    rw [Nat.zero_add]
    exact hfiles
  exact pollGo_fallback env cb name k 300 0 0 INITIAL_POLL_INTERVAL_MS hk
    (by norm_num [INITIAL_POLL_INTERVAL_MS]) hst hempty0 hfiles0 hdl

theorem poller_storage_fallback_success_witness :
    (VeoService.pollOperation pollEnvFallback true "op-1").1 =
      PollResult.success ⟨"op-1", true, none, none⟩ :=
  poller_storage_fallback_success pollEnvFallback true "op-1" 2
    (fun m => rfl)
    (fun j hj => by simp [pollEnvFallback, VeoService.checkGcsFiles, hj])
    (by norm_num [pollEnvFallback, VeoService.checkGcsFiles])
    (by norm_num [elapsedPlus, INITIAL_POLL_INTERVAL_MS, MAX_POLL_DURATION_MS,
      MAX_POLL_INTERVAL_MS, BACKOFF_MULTIPLIER])

/-- C6 (error handling): (i) a thrown transport error or a non-2xx
response in the status check yields `{ done: false }`, and a thrown error
in the storage probe yields `[]` — both are "not yet done" for that
iteration; (ii) an iteration in which both the status fetch and the
storage probe raise transport errors does not terminate the run: the loop
proceeds to the next iteration with the backed-off interval; (iii) a poll
run can only end in success or in the deadline `Timeout` error — no other
unsuccessful outcome exists.  (An explicit error payload arriving with
`done: true` is returned inside the successful operation value, so the
only unsuccessful ending is deadline exhaustion, within the claim's
bound.) -/
theorem poller_transport_error_tolerance :
    (∀ msg, VeoService.checkOperationStatus (.transportError msg) =
      ⟨false, none, none⟩) ∧
    (∀ code body, VeoService.checkOperationStatus (.httpError code body) =
      ⟨false, none, none⟩) ∧
    (∀ e, VeoService.checkGcsFiles (.error e) = []) ∧
    (∀ (env : PollEnv) (cb : Bool) (name : String) (fuel n : Nat) (e i : ℚ)
      (msg err : String), env.fetch n = .transportError msg →
      env.gcs n = .error err → e < MAX_POLL_DURATION_MS →
      (pollGo env cb name (fuel + 1) n e i).1 =
        (pollGo env cb name fuel (n + 1) (e + i)
          (min (i * BACKOFF_MULTIPLIER) MAX_POLL_INTERVAL_MS)).1) ∧
    (∀ (env : PollEnv) (cb : Bool) (name : String),
      (∃ op, (VeoService.pollOperation env cb name).1 = .success op) ∨
        (VeoService.pollOperation env cb name).1 =
          .timedOut "Generation timed out after 5 minutes") := by
  refine ⟨fun msg => rfl, fun c b => rfl, fun e => rfl, ?_, ?_⟩
  · intro env cb name fuel n e i msg err hfetch hgcs he
    simp [pollGo, he, hfetch, hgcs, VeoService.checkOperationStatus,
      VeoService.checkGcsFiles]
  · intro env cb name
    exact pollGo_result env cb name 300 0 0 INITIAL_POLL_INTERVAL_MS
      (by norm_num [INITIAL_POLL_INTERVAL_MS])
      (by norm_num [MAX_POLL_DURATION_MS, INITIAL_POLL_INTERVAL_MS])

theorem poller_transport_error_tolerance_witness :
    ((pollGo pollEnvAllErrors true "op-x" 3 0 0 1000).1 =
      (pollGo pollEnvAllErrors true "op-x" 2 1 (0 + 1000)
        (min (1000 * BACKOFF_MULTIPLIER) MAX_POLL_INTERVAL_MS)).1) ∧
    ((∃ op, (VeoService.pollOperation pollEnvAllErrors true "op-x").1 =
        PollResult.success op) ∨
      (VeoService.pollOperation pollEnvAllErrors true "op-x").1 =
        PollResult.timedOut "Generation timed out after 5 minutes") :=
  ⟨poller_transport_error_tolerance.2.2.2.1 pollEnvAllErrors true "op-x" 2 0 0
      1000 "ECONNRESET" "storage unavailable" rfl rfl
      (by norm_num [MAX_POLL_DURATION_MS]),
    poller_transport_error_tolerance.2.2.2.2 pollEnvAllErrors true "op-x"⟩

/-- C7 (functional correctness): (i) on every polling iteration entered
with elapsed time `e`, the progress callback (when supplied) is invoked
first, with `min(e / 180000, 0.95)`; (ii) the outcome and the sequence of
callback invocations are independent of whether the callback throws (each
invocation is wrapped in its own try/catch, so callback errors are
swallowed and polling continues); (iii) whenever a run ends in success,
the last callback invocation before returning is `1.0`. -/
theorem poller_progress_reporting :
    (∀ (env : PollEnv) (name : String) (fuel n : Nat) (e i : ℚ),
      e < MAX_POLL_DURATION_MS →
      (pollGo env true name (fuel + 1) n e i).2.head? =
        some (min (e / 180000) (19 / 20))) ∧
    (∀ (env env' : PollEnv) (cb : Bool) (name : String) (fuel n : Nat)
      (e i : ℚ), env.fetch = env'.fetch → env.gcs = env'.gcs →
      pollGo env cb name fuel n e i = pollGo env' cb name fuel n e i) ∧
    (∀ (env : PollEnv) (name : String) (fuel n : Nat) (e i : ℚ)
      (op : VeoOperation) (evs : List ℚ),
      pollGo env true name fuel n e i = (.success op, evs) →
      evs.getLast? = some 1) := by
  refine ⟨?_, ?_, ?_⟩
  · intro env name fuel n e i he
    exact pollGo_head_event env name fuel n e i he
  · intro env env' cb name fuel n e i hf hg
    exact pollGo_env_congr env env' hf hg cb name fuel n e i
  · intro env name fuel n e i op evs h
    exact pollGo_success_last env name fuel n e i op evs h

theorem poller_progress_reporting_witness :
    ((pollGo pollEnvAllErrors true "op-y" 1 0 0 1000).2.head? =
      some (min ((0 : ℚ) / 180000) (19 / 20))) ∧
    (pollGo pollEnvAllErrors true "op-y" 1 0 0 1000 =
      pollGo pollEnvAllErrorsQuiet true "op-y" 1 0 0 1000) ∧
    (([min ((0 : ℚ) / 180000) (19 / 20), (1 : ℚ)]).getLast? = some 1) :=
  ⟨poller_progress_reporting.1 pollEnvAllErrors "op-y" 0 0 0 1000
      (by norm_num [MAX_POLL_DURATION_MS]),
    poller_progress_reporting.2.1 pollEnvAllErrors pollEnvAllErrorsQuiet true
      "op-y" 1 0 0 1000 rfl rfl,
    poller_progress_reporting.2.2 pollEnvDone "op-z" 1 0 0 1000
      ⟨"op-z", true, some "resp", none⟩ [min ((0 : ℚ) / 180000) (19 / 20), 1]
      (by simp [pollGo, pollEnvDone, VeoService.checkOperationStatus,
        MAX_POLL_DURATION_MS])⟩

/-! ### Ledger / quota / resumption claim theorems -/

/-- C1 (invariants): the Ledger does NOT enforce the status state machine.
Every write updates `WHERE id = ...` with no predicate on the current
status (the repository's own openspec requirement "Request Status State
Machine" demands rejecting invalid transitions).  Evaluating the code at
the failing input: after `setGenerating`, `setFailed` puts the row in the
terminal state `failed`; a subsequent `setCompleted` is not rejected but
overwrites the terminal state with `completed`; a further `setGenerating`
moves the terminal row back to `generating`. -/
theorem ledger_terminal_states_not_enforced :
    ((RequestTrackingService.setFailed true "r1" "boom" 2000
        (RequestTrackingService.setGenerating true "r1" "op-1" "loc" 1500
          [rowPending])).map VideoRequestRow.status =
      [VideoRequestStatus.failed]) ∧
    ((RequestTrackingService.setCompleted true "r1" ["v.mp4"] 3000
        (RequestTrackingService.setFailed true "r1" "boom" 2000
          (RequestTrackingService.setGenerating true "r1" "op-1" "loc" 1500
            [rowPending]))).map VideoRequestRow.status =
      [VideoRequestStatus.completed]) ∧
    ((RequestTrackingService.setGenerating true "r1" "op-2" "loc" 4000
        (RequestTrackingService.setCompleted true "r1" ["v.mp4"] 3000
          (RequestTrackingService.setFailed true "r1" "boom" 2000
            (RequestTrackingService.setGenerating true "r1" "op-1" "loc" 1500
              [rowPending])))).map VideoRequestRow.status =
      [VideoRequestStatus.generating]) := by
  refine ⟨rfl, rfl, rfl⟩

/-- C8 counterexample: with the store unreachable, `consume` does not
return `{allowed: true, remaining: 0}` — the count query swallows its own
error and returns 0, so `consume` returns `remaining = 5` (the full veo
quota).  The claim's asserted result is false at this concrete input. -/
theorem rateLimit_consume_store_failure_counterexample :
    (RateLimitService.consume false "u1" RequestType.veo 0 []).allowed = true ∧
    (RateLimitService.consume false "u1" RequestType.veo 0 []).remaining = 5 ∧
    ¬ (RateLimitService.consume false "u1" RequestType.veo 0 []).remaining = 0 := by
  refine ⟨rfl, rfl, by decide⟩

/-- C8 amended (error handling): on a store failure, `consume` still never
propagates the error and never denies, but it returns
`{allowed: true, remaining: <category limit>}`: the failure is absorbed
inside `countRecentRequests` (which returns 0), so `consume` computes
`remaining = limit - 0`; its own `{allowed: true, remaining: 0}` catch
branch is unreachable via a store failure. -/
theorem rateLimit_consume_fails_open_with_full_quota (userId : String)
    (requestType : RequestType) (now : Nat) (db : RequestDb) :
    RateLimitService.consume false userId requestType now db =
      { allowed := true,
        remaining := RateLimitService.getQuotaLimit requestType,
        resetTime := none, waitSeconds := none } := by
  have h : ¬ RateLimitService.getQuotaLimit requestType ≤ 0 := by
    cases requestType <;> decide
  simp [RateLimitService.consume, RequestTrackingService.countRecentRequests, h]

/-- C9 (functional correctness): a `pending` request older than 24 hours
is expired by the Resumption Coordinator: the only action taken is the
`setTimeout` ledger write with the "Request expired (>24 hours old)"
message — in particular the generation-start capability is never invoked
— and (when the store is reachable) the request's row ends in status
`timeout` with that error message and `completed_at = now`. -/
theorem resume_expires_old_pending_without_start (env : ItemEnv) (now : Nat)
    (r : VideoRequestRow) (db : RequestDb)
    (hstatus : r.status = VideoRequestStatus.pending)
    (hage : 24 * MS_PER_HOUR < now - r.created_at) :
    ((TaskResumeService.resumeItem env now r db).2 =
      [RAction.markTimeout r.id "Request expired (>24 hours old)"]) ∧
    (∀ oid, RAction.startGen oid ∉ (TaskResumeService.resumeItem env now r db).2) ∧
    (env.storeOk = true → ∀ row ∈ (TaskResumeService.resumeItem env now r db).1,
      row.id = r.id →
        row.status = VideoRequestStatus.timeout ∧
        row.error_message = some "Request expired (>24 hours old)" ∧
        row.completed_at = some now) := by
  have hcond : r.status = VideoRequestStatus.pending ∧
      24 * MS_PER_HOUR < now - r.created_at := ⟨hstatus, hage⟩
  have hitem : TaskResumeService.resumeItem env now r db =
      (RequestTrackingService.setTimeout env.storeOk r.id
        "Request expired (>24 hours old)" now db,
        [RAction.markTimeout r.id "Request expired (>24 hours old)"]) := by
    unfold TaskResumeService.resumeItem
    rw [if_pos hcond]
  refine ⟨by rw [hitem], ?_, ?_⟩
  · intro oid hmem
    rw [hitem] at hmem
    simp at hmem
  · intro hsk row hrow hid
    rw [hitem] at hrow
    simp only [hsk] at hrow
    unfold RequestTrackingService.setTimeout at hrow
    rw [if_pos rfl] at hrow
    unfold dbUpdate at hrow
    obtain ⟨r0, hr0, heq⟩ := List.mem_map.1 hrow
    by_cases hr0id : r0.id = r.id
    · rw [if_pos hr0id] at heq
      subst heq
      exact ⟨rfl, rfl, rfl⟩
    · rw [if_neg hr0id] at heq
      subst heq
      exact absurd hid hr0id

theorem resume_expires_old_pending_without_start_witness :
    ((TaskResumeService.resumeItem envResumeOk 87401001 rowPending
      [rowPending]).2 =
      [RAction.markTimeout "r1" "Request expired (>24 hours old)"]) ∧
    (∀ oid, RAction.startGen oid ∉
      (TaskResumeService.resumeItem envResumeOk 87401001 rowPending
        [rowPending]).2) ∧
    (envResumeOk.storeOk = true → ∀ row ∈
      (TaskResumeService.resumeItem envResumeOk 87401001 rowPending
        [rowPending]).1,
      row.id = rowPending.id →
        row.status = VideoRequestStatus.timeout ∧
        row.error_message = some "Request expired (>24 hours old)" ∧
        row.completed_at = some 87401001) :=
  resume_expires_old_pending_without_start envResumeOk 87401001 rowPending
    [rowPending] rfl (by decide)

/-- C10 (implicit, error handling): every Ledger read degrades to a
neutral value on a store error — the in-window count is 0, the
oldest-timestamp query is `none`, `getIncompleteRequests` is `[]` — and
consequently a persistence outage at startup makes the Resumption
Coordinator a silent no-op: `resumeAll` leaves the database untouched,
invokes no capability, and reports no error. -/
theorem ledger_reads_degrade_and_resume_noop (userId : String)
    (hoursAgo maxAgeHours now : Nat) (db : RequestDb)
    (envf : String → ItemEnv) :
    RequestTrackingService.countRecentRequests false userId hoursAgo now db = 0 ∧
    RequestTrackingService.getOldestRequestTime false userId hoursAgo now db = none ∧
    RequestTrackingService.getIncompleteRequests false maxAgeHours now db = [] ∧
    TaskResumeService.resumeAll envf false now db = (db, []) := by
  exact ⟨rfl, rfl, rfl, rfl⟩
